import Mathlib

/-!
Verification development for the timed-comment ("danmaku") layout engine
embedded in `youtube_dl/extractor/niconico.py` (a vendored copy of
danmaku2ass).  The Python functions `ProcessComments`, `TestFreeRows`,
`FindAlternativeRow`, `MarkCommentRow`, `WriteASSHead`, `WriteComment`,
`ASSEscape`, `ConvertTimestamp`, `ConvertColor`, `ConvertType2`,
`GetZoomFactor` and `ReadComments` are shallowly embedded below.

Modelling conventions:
* Python floats are modelled as exact rationals (`ℚ`); Python ints as `ℤ`/`ℕ`.
* Python strings are `String`; the comment text, which the escaping logic
  manipulates character by character, is `List Char`.
* The comment record is the 9-tuple produced by the format adapters
  `(timeline, timestamp, no, text, pos, color, size, height, width)`.
* The per-kind row tables `rows = [[None]*(height-bottomReserved+1) for i in range(4)]`
  are a list of four lanes, each a list of `Option Comment` slots.
* `try/except ZeroDivisionError` is modelled by explicit zero tests placed
  exactly where Python would raise; `try/except IndexError` around the
  marking loop is modelled by `List.set`, which is the identity out of range
  (the Python loop walks indices in ascending order, so catching the first
  IndexError truncates the marking at the table boundary just like the
  out-of-range `List.set` no-ops do).
* The file handle `f` is modelled by returning the written data; the
  progress callback only reports progress and cannot affect the output, so
  it is omitted.
-/

/-- The comment kind tag `c[4]`: the format adapters produce the integers
`0` (scroll right-to-left), `1` (still top), `2` (still bottom),
`3` (scroll left-to-right), or the string `'bilipos'` for positioned
comments (`ReadCommentsBilibili`, map `{'1': 0, '4': 2, '5': 1, '6': 3}`). -/
inductive CKind where
  | rtl : CKind
  | top : CKind
  | bottom : CKind
  | ltr : CKind
  | bilipos : CKind
deriving DecidableEq, Repr

/-- The integer value of a flow kind tag (the index into `rows`).
`bilipos` never reaches a `rows[c[4]]` indexing site: `ProcessComments`
guards every such site with `isinstance(i[4], int)`. -/
def CKind.idx : CKind → ℕ
  | .rtl => 0
  | .top => 1
  | .bottom => 2
  | .ltr => 3
  | .bilipos => 0

/-- `isinstance(i[4], int)` : the four flow kinds. -/
def CKind.isFlow : CKind → Bool
  | .bilipos => false
  | _ => true

/-- `c[4] in (1, 2)` : the still kinds. -/
def CKind.isStill : CKind → Bool
  | .top => true
  | .bottom => true
  | _ => false

/-- Numeric encoding of the kind tag used only by the sort key.  (Python
sorts the raw tuples, where the flow kinds are the integers 0-3; a tie
reaching a comparison of an integer kind against the string `'bilipos'`
would raise `TypeError`, which has no counterpart in a total model, so
`bilipos` is encoded as the largest value.) -/
def CKind.code : CKind → ℕ
  | .rtl => 0
  | .top => 1
  | .bottom => 2
  | .ltr => 3
  | .bilipos => 4

/-- The normalized comment record: the 9-tuple
`(timeline, timestamp, no, text, pos, color, size, height, width)`
yielded by the format adapters (`c[0]` … `c[8]`). -/
structure Comment where
  timeline : ℚ
  timestamp : ℤ
  no : ℤ
  text : List Char
  kind : CKind
  color : ℕ
  size : ℚ
  height : ℚ
  width : ℚ
deriving DecidableEq, Repr

/-- Configuration of one layout run: the arguments of `ProcessComments`
other than the comment list, the output file and the style id.  The text
filter `filter_regex.search(i[3])` is modelled by an arbitrary predicate on
the comment text. -/
structure Config where
  width : ℤ
  height : ℤ
  bottomReserved : ℤ
  fontface : String
  fontsize : ℚ
  alpha : ℚ
  durationMarquee : ℚ
  durationStill : ℚ
  filter : Option (List Char → Bool)
  reduced : Bool

/-- One lane: `rows[k]`, a list of `height - bottomReserved + 1` slots, each
empty or holding (a shared reference to) the last comment that claimed it. -/
abbrev Lane := List (Option Comment)

/-- The four lane tables `rows`. -/
abbrev RowsTable := List Lane

/-- `rows = [[None] * (height - bottomReserved + 1) for i in range(4)]` -/
def initRows (cfg : Config) : RowsTable :=
  List.replicate 4 (List.replicate (cfg.height - cfg.bottomReserved + 1).toNat none)

/-- `rows[c[4]]` for a flow comment `c`. -/
def laneOf (rows : RowsTable) (c : Comment) : Lane :=
  rows.getD c.kind.idx []

/-- `math.ceil` of a rational, clamped to `ℕ` for use as a Python `range`
length (a `range` with a non-positive bound is empty). -/
def natCeil (q : ℚ) : ℕ := (⌈q⌉).toNat

/-- The still-kind occupancy test of `TestFreeRows`
(`targetRow[0] + duration_still > c[0]`): does the occupant `o` still block
the new comment `c`? -/
def stillBlocks (cfg : Config) (c : Comment) (o : Comment) : Bool :=
  decide (o.timeline + cfg.durationStill > c.timeline)

/-- `thresholdTime = c[0] - duration_marquee * (1 - width / (c[8] + width))`,
with the `except ZeroDivisionError` fallback `c[0] - duration_marquee`. -/
def marqueeThreshold (cfg : Config) (c : Comment) : ℚ :=
  if c.width + (cfg.width : ℚ) = 0 then c.timeline - cfg.durationMarquee
  else c.timeline - cfg.durationMarquee * (1 - (cfg.width : ℚ) / (c.width + (cfg.width : ℚ)))

/-- The marquee-kind occupancy test of `TestFreeRows`:
`targetRow[0] > thresholdTime or targetRow[0] + targetRow[8]*duration_marquee/(targetRow[8]+width) > c[0]`.
Python evaluates the first disjunct before the division; a
`ZeroDivisionError` in the second disjunct is swallowed (`pass`), leaving
the row treated as free. -/
def marqueeBlocks (cfg : Config) (c : Comment) (o : Comment) : Bool :=
  decide (o.timeline > marqueeThreshold cfg c) ||
    (decide (o.width + (cfg.width : ℚ) ≠ 0) &&
      decide (o.timeline + o.width * cfg.durationMarquee / (o.width + (cfg.width : ℚ)) > c.timeline))

/-- Occupancy test dispatched on the kind of the incoming comment
(`if c[4] in (1, 2)` in `TestFreeRows`). -/
def occupantBlocks (cfg : Config) (c : Comment) (o : Comment) : Bool :=
  if c.kind.isStill then stillBlocks cfg c o else marqueeBlocks cfg c o

/-- `targetRow and <occupancy test>` : an empty slot never blocks. -/
def slotBlocks (cfg : Config) (c : Comment) : Option Comment → Bool
  | none => false
  | some o => occupantBlocks cfg c o

/-- Python's `!=` on two comment tuples: field-wise value equality.
(The derived `DecidableEq` is kept for propositional reasoning; this
boolean form is what the scanning loop evaluates.) -/
def commentEqb (a b : Comment) : Bool :=
  decide (a.timeline = b.timeline) && decide (a.timestamp = b.timestamp) &&
    decide (a.no = b.no) && decide (a.text = b.text) && decide (a.kind = b.kind) &&
    decide (a.color = b.color) && decide (a.size = b.size) &&
    decide (a.height = b.height) && decide (a.width = b.width)

/-- `targetRow != rows[c[4]][row]` compares an optional slot value. -/
def slotEqb : Option Comment → Option Comment → Bool
  | none, none => true
  | some a, some b => commentEqb a b
  | _, _ => false

/-- The scanning loop shared by both branches of `TestFreeRows`:

    while row < rowmax and res < c[7]:
        if targetRow != rows[c[4]][row]:
            targetRow = rows[c[4]][row]
            if <occupancy test on targetRow>:
                break
        row += 1
        res += 1

`target` is the last slot value examined (`targetRow`, initially `None`);
a slot equal to it is not re-tested.  `fuel` bounds the iteration count and
is chosen by the caller so that it never runs out before `row < rowmax`
fails. -/
def testRowsLoop (lane : Lane) (blocks : Option Comment → Bool) (rowmax : ℤ) (cap : ℚ) :
    ℕ → ℕ → ℕ → Option Comment → ℕ
  | 0, _, res, _ => res
  | fuel + 1, row, res, target =>
    if (row : ℤ) < rowmax ∧ (res : ℚ) < cap then
      let slot := lane.getD row none
      if slotEqb slot target = false then
        if blocks slot then res
        else testRowsLoop lane blocks rowmax cap fuel (row + 1) (res + 1) slot
      else testRowsLoop lane blocks rowmax cap fuel (row + 1) (res + 1) target
    else res

/-- `TestFreeRows(rows, c, row, width, height, bottomReserved, duration_marquee, duration_still)`:
the number of consecutive row-units from `row` that are free for `c`,
scanning at most up to `rowmax = height - bottomReserved` and stopping once
`res < c[7]` fails. -/
def TestFreeRows (cfg : Config) (rows : RowsTable) (c : Comment) (row : ℕ) : ℕ :=
  let rowmax := cfg.height - cfg.bottomReserved
  testRowsLoop (laneOf rows c) (slotBlocks cfg c) rowmax c.height
    (rowmax - row).toNat row 0 none

/-- The row-search loop of `ProcessComments`:

    row = 0
    rowmax = height - bottomReserved - i[7]
    while row <= rowmax:
        freerows = TestFreeRows(...)
        if freerows >= i[7]: <place at row; break>
        else: row += freerows or 1
    else: <fallback>

Returns the placement row, or `none` when the loop ends without a break.
`fuel` is chosen by the caller large enough that it never runs out while
`row <= rowmax` still holds. -/
def searchRowLoop (cfg : Config) (rows : RowsTable) (c : Comment) (rowmaxQ : ℚ) :
    ℕ → ℕ → Option ℕ
  | 0, _ => none
  | fuel + 1, row =>
    if (row : ℚ) ≤ rowmaxQ then
      let freerows := TestFreeRows cfg rows c row
      if c.height ≤ (freerows : ℚ) then some row
      else searchRowLoop cfg rows c rowmaxQ fuel (row + (if freerows = 0 then 1 else freerows))
    else none

/-- `rowmax = height - bottomReserved - i[7]` (a float in Python). -/
def rowmaxQ (cfg : Config) (c : Comment) : ℚ :=
  ((cfg.height - cfg.bottomReserved : ℤ) : ℚ) - c.height

/-- Fuel sufficient for `searchRowLoop`: the loop increases `row` by at
least one per iteration and runs only while `row ≤ rowmaxQ`. -/
def searchFuel (cfg : Config) (c : Comment) : ℕ := (⌊rowmaxQ cfg c⌋ + 1).toNat

/-- The full row search performed by `ProcessComments` for one flow comment. -/
def searchRow (cfg : Config) (rows : RowsTable) (c : Comment) : Option ℕ :=
  searchRowLoop cfg rows c (rowmaxQ cfg c) (searchFuel cfg c) 0

/-- The scan of `FindAlternativeRow`:

    res = 0
    for row in range(height - bottomReserved - math.ceil(c[7])):
        if not rows[c[4]][row]: return row
        elif rows[c[4]][row][0] < rows[c[4]][res][0]: res = row
    return res

The `none` case of the `res` slot is unreachable on the paths the program
takes (`res` starts at 0 and the first iteration returns immediately when
slot 0 is empty); it is given the behaviour "keep `res`". -/
def findAltLoop (lane : Lane) (n : ℕ) : ℕ → ℕ → ℕ → ℕ
  | 0, _, res => res
  | fuel + 1, row, res =>
    if row < n then
      match lane.getD row none with
      | none => row
      | some o =>
        match lane.getD res none with
        | none => findAltLoop lane n fuel (row + 1) res
        | some b =>
          findAltLoop lane n fuel (row + 1) (if o.timeline < b.timeline then row else res)
    else res

/-- `FindAlternativeRow(rows, c, height, bottomReserved)`.  The loop runs
`range(height - bottomReserved - math.ceil(c[7]))`, so fuel `n` (the range
length, with `row` starting at 0) never runs out before `row < n` fails. -/
def FindAlternativeRow (cfg : Config) (rows : RowsTable) (c : Comment) : ℕ :=
  findAltLoop (laneOf rows c) (cfg.height - cfg.bottomReserved - ⌈c.height⌉).toNat
    (cfg.height - cfg.bottomReserved - ⌈c.height⌉).toNat 0 0

/-- `MarkCommentRow(rows, c, row)`:

    for i in range(row, row + math.ceil(c[7])): rows[c[4]][i] = c
    (IndexError silently truncates the loop)
-/
def MarkCommentRow (rows : RowsTable) (c : Comment) (row : ℕ) : RowsTable :=
  let lane := (List.range (natCeil c.height)).foldl
    (fun l i => l.set (row + i) (some c)) (laneOf rows c)
  rows.set c.kind.idx lane

/-- `a / b` with Python's `ZeroDivisionError` made explicit. -/
def qdiv? (a b : ℚ) : Option ℚ := if b = 0 then none else some (a / b)

/-- The body of `GetZoomFactor(SourceSize, TargetSize)` inside its
`try` block; `none` marks a `ZeroDivisionError`.  (The single-entry
memoisation cache always returns exactly the value this computation
produces for the cached pair, so the function is observationally pure and
the cache is not modelled.) -/
def GetZoomFactorO (source target : ℚ × ℚ) : Option (ℚ × ℚ × ℚ) := do
  let sourceAspect ← qdiv? source.1 source.2
  let targetAspect ← qdiv? target.1 target.2
  if targetAspect < sourceAspect then
    let scaleFactor ← qdiv? target.1 source.1
    let inner ← qdiv? target.1 sourceAspect
    pure (scaleFactor, 0, (target.2 - inner) / 2)
  else if sourceAspect < targetAspect then
    let scaleFactor ← qdiv? target.2 source.2
    pure (scaleFactor, (target.1 - target.2 * sourceAspect) / 2, 0)
  else
    let scaleFactor ← qdiv? target.1 source.1
    pure (scaleFactor, 0, 0)

/-- `GetZoomFactor`: result `(f, dx, dy)`, with the
`except ZeroDivisionError` fallback `(1, 0, 0)`. -/
def GetZoomFactor (source target : ℚ × ℚ) : ℚ × ℚ × ℚ :=
  (GetZoomFactorO source target).getD (1, 0, 0)

/-- Python 3 `round` to an integer: round half to even. -/
def pyRound (q : ℚ) : ℤ :=
  let f := ⌊q⌋
  let r := q - (f : ℚ)
  if r < 1 / 2 then f
  else if 1 / 2 < r then f + 1
  else if f % 2 = 0 then f else f + 1

/-- Python `int()` truncation toward zero, as used by the `%d` format
conversion on a float. -/
def pyTrunc (q : ℚ) : ℤ := q.num / (q.den : ℤ)

/-- `'%d' % x` for a Python number `x`. -/
def fmtD (q : ℚ) : String := toString (pyTrunc q)

/-- `'%.0f' % x`: round half to even to 0 decimals.  Python prints a
negative zero for values in (-0.5, -0.0]; real inputs here are
non-negative, but the case is kept. -/
def fmtF0 (q : ℚ) : String :=
  let n := pyRound q
  if n = 0 ∧ q < 0 then "-0" else toString n

/-- `'%02d' % n` for the non-negative time components. -/
def fmt02d (n : ℤ) : String :=
  if 0 ≤ n ∧ n < 10 then "0" ++ toString n else toString n

/-- One uppercase hexadecimal digit (code point arithmetic: digits start
at 48, uppercase letters at 65 = 55 + 10). -/
def hexDigitU (n : ℕ) : Char :=
  if n < 10 then Char.ofNat (48 + n) else Char.ofNat (55 + n)

/-- One lowercase hexadecimal digit (lowercase letters start at 97 = 87 + 10). -/
def hexDigitL (n : ℕ) : Char :=
  if n < 10 then Char.ofNat (48 + n) else Char.ofNat (87 + n)

/-- `'%02X' % n` for a byte value. -/
def hex2U (n : ℕ) : String :=
  String.mk [hexDigitU (n / 16 % 16), hexDigitU (n % 16)]

/-- `'%04x' % n` for a 16-bit value (the style-id suffix). -/
def hex4L (n : ℕ) : String :=
  String.mk [hexDigitL (n / 4096 % 16), hexDigitL (n / 256 % 16),
    hexDigitL (n / 16 % 16), hexDigitL (n % 16)]

/-- `ConvertTimestamp(timestamp)`:

    timestamp = round(timestamp * 100.0)
    hour, minute = divmod(timestamp, 360000)
    minute, second = divmod(minute, 6000)
    second, centsecond = divmod(second, 100)
    return '%d:%02d:%02d.%02d' % ...

Python `divmod` is floor division; for a positive divisor this is `ediv`/`emod`. -/
def ConvertTimestamp (timestamp : ℚ) : String :=
  let t := pyRound (timestamp * 100)
  let hour := t.ediv 360000
  let minute := t.emod 360000
  let second := minute.emod 6000
  let minute2 := minute.ediv 6000
  let centsecond := second.emod 100
  let second2 := second.ediv 100
  toString hour ++ ":" ++ fmt02d minute2 ++ ":" ++ fmt02d second2 ++ "." ++ fmt02d centsecond

/-- `ClipByte = lambda x: 255 if x > 255 else 0 if x < 0 else round(x)` -/
def ClipByte (x : ℚ) : ℤ :=
  if 255 < x then 255 else if x < 0 then 0 else pyRound x

/-- `ConvertColor(RGB, width=1280, height=576)` (explicit-argument form;
`convertColorDefault` below is the call with Python's default arguments). -/
def ConvertColor (RGB : ℕ) (width : ℤ) (height : ℤ) : String :=
  if RGB = 0x000000 then "000000"
  else if RGB = 0xffffff then "FFFFFF"
  else
    let R : ℚ := ((RGB / 65536 % 256 : ℕ) : ℚ)
    let G : ℚ := ((RGB / 256 % 256 : ℕ) : ℚ)
    let B : ℚ := ((RGB % 256 : ℕ) : ℚ)
    if width < 1280 ∧ height < 576 then
      hex2U (RGB % 256) ++ hex2U (RGB / 256 % 256) ++ hex2U (RGB / 65536 % 256)
    else
      hex2U (ClipByte (R * 0.00956384088080656 + G * 0.03217254540203729 + B * 0.95826361371715607)).toNat ++
      hex2U (ClipByte (R * (-0.10493933142075390) + G * 1.17231478191855154 + B * (-0.06737545049779757))).toNat ++
      hex2U (ClipByte (R * 0.91348912373987645 + G * 0.07858536372532510 + B * 0.00792551253479842)).toNat

/-- Every call site of `ConvertColor` in the program (`WriteComment` and
`WriteCommentBilibiliPositioned`) passes only `c[5]`, so the default
resolution `(1280, 576)` is always used. -/
def convertColorDefault (RGB : ℕ) : String := ConvertColor RGB 1280 576

/-- `ConvertType2(row, height, bottomReserved) = height - bottomReserved - row` -/
def ConvertType2 (row : ℕ) (height bottomReserved : ℤ) : ℤ :=
  height - bottomReserved - (row : ℤ)

/-- The figure space U+2007 used as the non-breaking placeholder. -/
def figureSpace : Char := Char.ofNat 0x2007

/-- `str.replace(old, new)` at character granularity: each occurrence of
the single character `old` becomes the sequence `new`. -/
def replaceChar (old : Char) (new : List Char) : List Char → List Char
  | [] => []
  | ch :: rest => (if ch = old then new else [ch]) ++ replaceChar old new rest

/-- Python `s.lstrip(' ')`. -/
def lstripSpace (s : List Char) : List Char := s.dropWhile (· = ' ')

/-- Python `s.rstrip(' ')`. -/
def rstripSpace (s : List Char) : List Char :=
  (s.reverse.dropWhile (· = ' ')).reverse

/-- Python `s.strip(' ')`. -/
def stripSpace (s : List Char) : List Char := rstripSpace (lstripSpace s)

/-- `ReplaceLeadingSpace` inside `ASSEscape`:

    sstrip = s.strip(' ')
    if len(s) == len(sstrip): return s
    else:
        llen = len(s) - len(s.lstrip(' '))
        rlen = len(s) - len(s.rstrip(' '))
        return ''.join(('\u2007'*llen, sstrip, '\u2007'*rlen))
-/
def ReplaceLeadingSpace (s : List Char) : List Char :=
  let sstrip := stripSpace s
  if s.length = sstrip.length then s
  else
    let llen := s.length - (lstripSpace s).length
    let rlen := s.length - (rstripSpace s).length
    List.replicate llen figureSpace ++ sstrip ++ List.replicate rlen figureSpace

/-- The left brace and right brace characters (escaped by `ASSEscape`). -/
def lbraceChar : Char := Char.ofNat 123

/-- See `lbraceChar`. -/
def rbraceChar : Char := Char.ofNat 125

/-- The character escaping inside `ASSEscape`:
`str(s).replace('\\', '\\\\').replace('{', '\\{').replace('}', '\\}')`. -/
def escapeSpecials (s : List Char) : List Char :=
  replaceChar rbraceChar ['\\', rbraceChar]
    (replaceChar lbraceChar ['\\', lbraceChar]
      (replaceChar '\\' ['\\', '\\'] s))

/-- See `ASSEscape`: the per-line transformation `ReplaceLeadingSpace(i) or ' '`. -/
def escapeLine (i : List Char) : List Char :=
  let r := ReplaceLeadingSpace i
  if r = [] then [' '] else r

/-- `ASSEscape(s)`:

    return '\\N'.join((ReplaceLeadingSpace(i) or ' ' for i in
        str(s).replace(chr(92), chr(92)*2).replace(chr(123), ...).replace(chr(125), ...).split(chr(10))))
-/
def ASSEscape (s : List Char) : List Char :=
  List.intercalate ['\\', 'N'] (((escapeSpecials s).splitOn '\n').map escapeLine)

/-- `duration` selected in `WriteComment` (`duration_still` for the still
kinds, `duration_marquee` otherwise). -/
def commentDuration (cfg : Config) (c : Comment) : ℚ :=
  if c.kind.isStill then cfg.durationStill else cfg.durationMarquee

/-- The `styles` list built by `WriteComment(f, c, row, ...)`:
position/move directive, optional font-size override, optional color
override (plus white outline for pure black). -/
def WriteCommentStyles (cfg : Config) (c : Comment) (row : ℕ) : List String :=
  let posStyle :=
    match c.kind with
    | .top =>
      "\\an8\\pos(" ++ fmtD ((cfg.width : ℚ) / 2) ++ ", " ++ toString row ++ ")"
    | .bottom =>
      "\\an2\\pos(" ++ fmtD ((cfg.width : ℚ) / 2) ++ ", " ++
        toString (ConvertType2 row cfg.height cfg.bottomReserved) ++ ")"
    | .ltr =>
      "\\move(" ++ toString (-⌈c.width⌉) ++ ", " ++ toString row ++ ", " ++
        toString cfg.width ++ ", " ++ toString row ++ ")"
    | _ =>
      "\\move(" ++ toString cfg.width ++ ", " ++ toString row ++ ", " ++
        toString (-⌈c.width⌉) ++ ", " ++ toString row ++ ")"
  let sizeStyles :=
    if ¬(-1 < c.size - cfg.fontsize ∧ c.size - cfg.fontsize < 1) then
      ["\\fs" ++ fmtF0 c.size]
    else []
  let colorStyles :=
    if c.color ≠ 0xffffff then
      ["\\c&H" ++ convertColorDefault c.color ++ "&"] ++
        (if c.color = 0x000000 then ["\\3c&HFFFFFF&"] else [])
    else []
  [posStyle] ++ sizeStyles ++ colorStyles

/-- The dialogue line written by `WriteComment`:
`'Dialogue: 2,%(start)s,%(end)s,%(styleid)s,,0000,0000,0000,,{%(styles)s}%(text)s\n'`. -/
def WriteComment (cfg : Config) (c : Comment) (row : ℕ) (styleid : String) : String :=
  "Dialogue: 2," ++ ConvertTimestamp c.timeline ++ "," ++
    ConvertTimestamp (c.timeline + commentDuration cfg c) ++ "," ++ styleid ++
    ",,0000,0000,0000,," ++ "\x7b" ++ String.join (WriteCommentStyles cfg c row) ++
    "\x7d" ++ String.mk (ASSEscape c.text) ++ "\n"

/-- The script header written once by `WriteASSHead`. -/
def WriteASSHead (cfg : Config) (styleid : String) : String :=
  let alphaHex := hex2U (255 - pyRound (cfg.alpha * 255)).toNat
  let outline := max (cfg.fontsize / 25) 1
  "[Script Info]\n; Script generated by Danmaku2ASS\n; https://github.com/m13253/danmaku2ass\nScript Updated By: Danmaku2ASS (https://github.com/m13253/danmaku2ass)\nScriptType: v4.00+\nPlayResX: " ++
    toString cfg.width ++ "\nPlayResY: " ++ toString cfg.height ++
    "\nAspect Ratio: " ++ toString cfg.width ++ ":" ++ toString cfg.height ++
    "\nCollisions: Normal\nWrapStyle: 2\nScaledBorderAndShadow: yes\nYCbCr Matrix: TV.601\n\n[V4+ Styles]\nFormat: Name, Fontname, Fontsize, PrimaryColour, SecondaryColour, OutlineColour, BackColour, Bold, Italic, Underline, StrikeOut, ScaleX, ScaleY, Spacing, Angle, BorderStyle, Outline, Shadow, Alignment, MarginL, MarginR, MarginV, Encoding\nStyle: " ++
    styleid ++ ", " ++ cfg.fontface ++ ", " ++ fmtF0 cfg.fontsize ++ ", &H" ++
    alphaHex ++ "FFFFFF, &H" ++ alphaHex ++ "FFFFFF, &H" ++ alphaHex ++
    "000000, &H" ++ alphaHex ++ "000000, 0, 0, 0, 0, 100, 100, 0.00, 0.00, 1, " ++
    fmtF0 outline ++ ", 0, 7, 0, 0, 0, 0\n\n[Events]\nFormat: Layer, Start, End, Style, Name, MarginL, MarginR, MarginV, Effect, Text\n"

/-- The tail of the `styles` list built by `WriteCommentBilibiliPositioned`
after the rotation-dependent directives (`\fn`, `\fs`, color, alpha/fade,
`\bord0`).  The earlier directives depend on `ConvertFlashRotation`, whose
trigonometry lies outside the rational model; this tail is a function of
the parsed payload fields (`fontface = comment_args.get(12)`,
`from_alpha`/`to_alpha`, `lifetime`, `isborder`) and of the zoom scale
`ZoomFactor[0] = GetZoomFactor(BiliPlayerSize, (width, height))[0]`. -/
def biliposTailStyles (c5 : ℕ) (size zoomScale : ℚ) (fontface : Option (List Char))
    (fromAlpha toAlpha : ℤ) (lifetime : ℚ) (isborder : String) : List String :=
  (match fontface with
   | some ff => if ff = [] then [] else ["\\fn" ++ String.mk (ASSEscape ff)]
   | none => []) ++
  ["\\fs" ++ fmtF0 (size * zoomScale)] ++
  (if c5 ≠ 0xffffff then
    ["\\c&H" ++ convertColorDefault c5 ++ "&"] ++
      (if c5 = 0x000000 then ["\\3c&HFFFFFF&"] else [])
   else []) ++
  (if fromAlpha = toAlpha then ["\\alpha&H" ++ hex2U fromAlpha.toNat]
   else if fromAlpha = 255 ∧ toAlpha = 0 then ["\\fad(" ++ fmtF0 (lifetime * 1000) ++ ",0)"]
   else if fromAlpha = 0 ∧ toAlpha = 255 then ["\\fad(0, " ++ fmtF0 (lifetime * 1000) ++ ")"]
   else
     ["\\fade(" ++ toString fromAlpha ++ ", " ++ toString toAlpha ++ ", " ++
       toString toAlpha ++ ", 0, " ++ fmtF0 (lifetime * 1000) ++ ", " ++
       fmtF0 (lifetime * 1000) ++ ", " ++ fmtF0 (lifetime * 1000) ++ ")"]) ++
  (if isborder = "false" then ["\\bord0"] else [])

/-- One item of the output document: a written text line, or the hand-off
of a positioned comment to `WriteCommentBilibiliPositioned` (whose own
string rendering involves floating-point trigonometry and is therefore
recorded as the event itself rather than as rendered text). -/
inductive OutputEvent where
  | line : String → OutputEvent
  | biliposEvent : Comment → OutputEvent
deriving DecidableEq, Repr

/-- What `ProcessComments` decided for one comment. -/
inductive StepResult where
  | filtered : StepResult
  | placed : ℕ → Bool → StepResult
  | droppedReduced : StepResult
  | biliposOut : StepResult
deriving DecidableEq, Repr

/-- `filter_regex and filter_regex.search(i[3])`. -/
def filterMatches (cfg : Config) (c : Comment) : Bool :=
  match cfg.filter with
  | some f => f c.text
  | none => false

/-- The body of the `ProcessComments` loop for one comment `i`:

    if isinstance(i[4], int):
        if filter_regex and filter_regex.search(i[3]): continue
        <row search>; on success or non-reduced fallback: MarkCommentRow + WriteComment
    elif i[4] == 'bilipos':
        WriteCommentBilibiliPositioned(f, i, width, height, styleid)

Returns the updated row tables, the written output (if any), and the
decision taken. -/
def processOne (cfg : Config) (styleid : String) (rows : RowsTable) (c : Comment) :
    RowsTable × Option OutputEvent × StepResult :=
  if c.kind.isFlow then
    if filterMatches cfg c then (rows, none, .filtered)
    else
      match searchRow cfg rows c with
      | some row =>
        (MarkCommentRow rows c row,
          some (.line (WriteComment cfg c row styleid)), .placed row false)
      | none =>
        if cfg.reduced then (rows, none, .droppedReduced)
        else
          let row := FindAlternativeRow cfg rows c
          (MarkCommentRow rows c row,
            some (.line (WriteComment cfg c row styleid)), .placed row true)
  else (rows, some (.biliposEvent c), .biliposOut)

/-- The `ProcessComments` loop over the whole comment list, recording for
each comment the row tables it was processed against, the decision, and
the output written for it. -/
def processFold (cfg : Config) (styleid : String) :
    RowsTable → List Comment → List (RowsTable × Comment × StepResult × Option OutputEvent)
  | _, [] => []
  | rows, c :: rest =>
    let r := processOne cfg styleid rows c
    (rows, c, r.2.2, r.2.1) :: processFold cfg styleid r.1 rest

/-- The steps of one whole run, starting from the freshly allocated row
tables. -/
def processSteps (cfg : Config) (styleid : String) (cs : List Comment) :
    List (RowsTable × Comment × StepResult × Option OutputEvent) :=
  processFold cfg styleid (initRows cfg) cs

/-- `styleid = 'Danmaku2ASS_%04x' % random.randint(0, 0xffff)`: the style
identity determined by the outcome `rand` of the random draw. -/
def styleidOf (rand : ℕ) : String := "Danmaku2ASS_" ++ hex4L rand

/-- `ProcessComments(comments, f, ...)`: the output document of one run —
the header written by `WriteASSHead` followed by the per-comment output —
as a function of the comment list, the configuration and the random draw. -/
def ProcessComments (cfg : Config) (rand : ℕ) (cs : List Comment) : List OutputEvent :=
  .line (WriteASSHead cfg (styleidOf rand)) ::
    (processSteps cfg (styleidOf rand) cs).filterMap (fun s => s.2.2.2)

/-- The `(comment, row, via-fallback)` list of lane placements of one run
(the decisions do not depend on the style id). -/
def placements (cfg : Config) (cs : List Comment) : List (Comment × ℕ × Bool) :=
  (processSteps cfg (styleidOf 0) cs).filterMap fun s =>
    match s.2.2.1 with
    | .placed row fb => some (s.2.1, row, fb)
    | _ => none

/-- The sort key of a comment: Python's `comments.sort()` sorts the raw
9-tuples lexicographically. -/
def sortKey (c : Comment) :
    Lex (ℚ × Lex (ℤ × Lex (ℤ × Lex (List Char × Lex (ℕ × Lex (ℕ × Lex (ℚ × Lex (ℚ × ℚ)))))))) :=
  toLex (c.timeline, toLex (c.timestamp, toLex (c.no, toLex (c.text,
    toLex (c.kind.code, toLex (c.color, toLex (c.size, toLex (c.height, c.width))))))))

/-- The tuple order used by `comments.sort()`. -/
def commentLE (a b : Comment) : Prop := sortKey a ≤ sortKey b

instance : DecidableRel commentLE := fun a b =>
  inferInstanceAs (Decidable (sortKey a ≤ sortKey b))

/-- `comments.sort()` — a stable sort by the tuple order.  (Python's
timsort and insertion sort compute the same list: both are stable, and for
this total order the result is unique up to equal elements.) -/
def pySort (l : List Comment) : List Comment := List.insertionSort commentLE l

/-- A comment list sorted as `ReadComments` leaves it. -/
def sortedInput (l : List Comment) : Prop := List.Sorted commentLE l

instance : DecidablePred sortedInput := fun l =>
  inferInstanceAs (Decidable (List.Pairwise commentLE l))

/-- The wire-format tags of `CommentFormatMap`. -/
inductive FmtTag where
  | niconico : FmtTag
  | niconicoJson : FmtTag
  | bilibili : FmtTag
deriving DecidableEq, Repr

/-- `CommentFormatMap = {'Niconico': ..., 'NiconicoJson': ..., 'Bilibili': ...}` -/
def CommentFormatMap (fmt : String) : Option FmtTag :=
  if fmt = "Niconico" then some .niconico
  else if fmt = "NiconicoJson" then some .niconicoJson
  else if fmt = "Bilibili" then some .bilibili
  else none

/-- `FilterBadChars`: control characters (except tab/newline/return) are
replaced by U+FFFD. -/
def badChar (c : Char) : Bool :=
  (c.toNat ≤ 0x08) || (c.toNat = 0x0b) || (c.toNat = 0x0c) ||
    (0x0e ≤ c.toNat && c.toNat ≤ 0x1f)

/-- See `badChar`. -/
def FilterBadChars (s : String) : String :=
  String.mk (s.data.map fun c => if badChar c then Char.ofNat 0xfffd else c)

/-- The loop of `ReadComments(input_files, input_format, font_size)`:

    for i in input_files:
        with ... as f:
            CommentProcessor = CommentFormatMap.get(input_format)
            if not CommentProcessor:
                raise ValueError('Unknown comment file format: %s' % input_format)
            comments.extend(CommentProcessor(FilterBadChars(...), font_size))
    comments.sort()

A source file is modelled by its content string, and the three format
adapters (XML/JSON parsing via the Python standard library — external
collaborators per the format-adapter contract) by an arbitrary `parse`
function; the format-identifier dispatch and the error path never invoke
them. -/
def readCommentsLoop (parse : FmtTag → String → ℚ → List Comment) (fmt : String)
    (fontsize : ℚ) : List String → List Comment → Except String (List Comment)
  | [], acc => .ok (pySort acc)
  | f :: rest, acc =>
    match CommentFormatMap fmt with
    | none => .error ("Unknown comment file format: " ++ fmt)
    | some tag =>
      readCommentsLoop parse fmt fontsize rest (acc ++ parse tag (FilterBadChars f) fontsize)

/-- `ReadComments`. -/
def ReadComments (parse : FmtTag → String → ℚ → List Comment) (files : List String)
    (fmt : String) (fontsize : ℚ) : Except String (List Comment) :=
  readCommentsLoop parse fmt fontsize files []

/-- The half-open row-unit interval `[row, row + ceil(height))` claimed by a
placed comment (`MarkCommentRow` marks exactly these slots). -/
def rangesOverlap (r1 : ℕ) (h1 : ℚ) (r2 : ℕ) (h2 : ℚ) : Prop :=
  max r1 r2 < min (r1 + natCeil h1) (r2 + natCeil h2)

instance (r1 : ℕ) (h1 : ℚ) (r2 : ℕ) (h2 : ℚ) : Decidable (rangesOverlap r1 h1 r2 h2) :=
  inferInstanceAs (Decidable (_ < _))

/-- The pairwise non-overlap property claimed for the lane allocator: for
any two placements of the same kind, neither made via the degraded-overlap
fallback, whose row-unit ranges overlap, the earlier comment must no longer
block the later one under its kind's overlap rule (the still-duration has
elapsed / the newcomer cannot catch the occupant; this is exactly the
`TestFreeRows` occupancy test with the earlier comment as occupant). -/
def c1Pairwise (cfg : Config) (cs : List Comment) : Prop :=
  (placements cfg cs).Pairwise fun p q =>
    p.1.kind = q.1.kind → p.2.2 = false → q.2.2 = false →
    rangesOverlap p.2.1 p.1.height q.2.1 q.1.height →
    occupantBlocks cfg q.1 p.1 = false

instance (cfg : Config) (cs : List Comment) : Decidable (c1Pairwise cfg cs) :=
  inferInstanceAs (Decidable (List.Pairwise _ _))

/-- A run of `ceil(height)` row-units starting at `s` that lies inside the
scanned part of the lane (`row < height - bottomReserved`) and is entirely
free for `c` under its kind's occupancy test. -/
def freeRunAt (cfg : Config) (c : Comment) (lane : Lane) (s : ℕ) : Prop :=
  ((s + natCeil c.height : ℕ) : ℤ) ≤ cfg.height - cfg.bottomReserved ∧
    ∀ i < natCeil c.height, slotBlocks cfg c (lane.getD (s + i) none) = false

/-- The expiry of a row slot's occupant for the purpose of
`FindAlternativeRow`: an empty slot has no active occupant (bottom); an
occupant of the lane of `c`'s kind leaves the screen `duration_still`
(resp. `duration_marquee`) after its own timeline, so comparing occupant
timelines — which is what the code does — compares expiry times. -/
def occupantExpiry (cfg : Config) (c : Comment) : Option Comment → WithBot ℚ
  | none => ⊥
  | some o => ((o.timeline + commentDuration cfg c : ℚ) : WithBot ℚ)

/-- The property claimed (C5) for the text filter: every comment whose text
matches the filter is excluded — its step produces no output event and
leaves no placement. -/
def filterExcludesAll (cfg : Config) (cs : List Comment) : Prop :=
  ∀ e ∈ processSteps cfg (styleidOf 0) cs,
    filterMatches cfg e.2.1 = true → e.2.2.1 = .filtered ∧ e.2.2.2 = none

instance (cfg : Config) (cs : List Comment) : Decidable (filterExcludesAll cfg cs) :=
  inferInstanceAs (Decidable (∀ e ∈ _, _))

/-- The per-line escaping behaviour claimed (C8), stated from the spec's
words: each line's leading and trailing spaces are replaced one-for-one by
the non-breaking placeholder, interior characters are unchanged, and a
fully empty line becomes exactly one space. -/
def specOneForOneLine (s : List Char) : List Char :=
  if s = [] then [' ']
  else
    let rest := s.dropWhile (· = ' ')
    List.replicate (s.takeWhile (· = ' ')).length figureSpace ++
      (rest.reverse.dropWhile (· = ' ')).reverse ++
      List.replicate (rest.reverse.takeWhile (· = ' ')).length figureSpace

/-- The amended per-line escaping behaviour: as claimed for lines that
contain a non-space character, but a line consisting of `k ≥ 1` spaces
becomes `2·k` placeholders (its spaces are counted once as leading and once
as trailing), and only the fully empty line becomes a single space. -/
def amendedEscapeLine (s : List Char) : List Char :=
  if s.all (· = ' ') then
    if s = [] then [' '] else List.replicate (2 * s.length) figureSpace
  else
    List.replicate (s.takeWhile (· = ' ')).length figureSpace ++ stripSpace s ++
      List.replicate (s.reverse.takeWhile (· = ' ')).length figureSpace

/-- The BT.601→BT.709 conversion described by the spec: apply the fixed
3×3 coefficient matrix to the R, G, B channels, clamp each result to
`[0, 255]`, and print the three bytes as uppercase hex. -/
def bt709Hex (RGB : ℕ) : String :=
  let R : ℚ := ((RGB / 65536 % 256 : ℕ) : ℚ)
  let G : ℚ := ((RGB / 256 % 256 : ℕ) : ℚ)
  let B : ℚ := ((RGB % 256 : ℕ) : ℚ)
  hex2U (ClipByte (R * 0.00956384088080656 + G * 0.03217254540203729 + B * 0.95826361371715607)).toNat ++
    hex2U (ClipByte (R * (-0.10493933142075390) + G * 1.17231478191855154 + B * (-0.06737545049779757))).toNat ++
    hex2U (ClipByte (R * 0.91348912373987645 + G * 0.07858536372532510 + B * 0.00792551253479842)).toNat

/-- A small canvas for the lane-allocator scenarios of claim C1:
100×2 canvas, no bottom reservation, 5 s marquee/still durations. -/
def cfgLaneC1 : Config := ⟨100, 2, 0, "sans-serif", 25, 1, 5, 5, none, false⟩

/-- A wide, slow marquee comment (timeline 0, width 900, height 2). -/
def laneCmtA : Comment := ⟨0, 0, 0, ['a'], .rtl, 0xffffff, 25, 2, 900⟩

/-- A zero-width marquee comment at timeline 0.1 (blocked by `laneCmtA`,
placed via the degraded-overlap fallback). -/
def laneCmtB : Comment := ⟨1/10, 0, 1, ['b'], .rtl, 0xffffff, 25, 2, 0⟩

/-- A zero-width marquee comment at timeline 1 (tests free against
`laneCmtB`, the latest claimant, although `laneCmtA` still blocks it). -/
def laneCmtC : Comment := ⟨1, 0, 2, ['c'], .rtl, 0xffffff, 25, 2, 0⟩

/-- The row tables of `cfgLaneC1` after `laneCmtA` is placed at row 0. -/
def laneStateAfterA : RowsTable := MarkCommentRow (initRows cfgLaneC1) laneCmtA 0

/-- The configuration used for the determinism scenario of claim C2. -/
def cfgDet : Config := ⟨1280, 720, 0, "sans-serif", 25, 1, 5, 5, none, false⟩

/-- Two comments in non-sorted arrival order for the C2 witness. -/
def detCmtA : Comment := ⟨0, 0, 1, ['x'], .top, 0xffffff, 25, 25, 25⟩

/-- See `detCmtA`. -/
def detCmtB : Comment := ⟨2, 0, 2, ['y'], .rtl, 0xffffff, 25, 25, 25⟩

/-- The configuration of the fallback scenario of claim C3 (100×2 canvas). -/
def cfgAlt : Config := ⟨100, 2, 0, "sans-serif", 25, 1, 5, 5, none, false⟩

/-- A still-top comment occupying both rows of the `cfgAlt` canvas. -/
def altOccupant : Comment := ⟨0, 0, 0, ['o'], .top, 0xffffff, 25, 2, 25⟩

/-- A still-top newcomer at timeline 1, blocked everywhere by `altOccupant`. -/
def altNewcomer : Comment := ⟨1, 0, 1, ['n'], .top, 0xffffff, 25, 2, 25⟩

/-- The row tables of `cfgAlt` after `altOccupant` is placed at row 0. -/
def altState : RowsTable := MarkCommentRow (initRows cfgAlt) altOccupant 0

/-- The configuration of the three-still-comments scenario of claim C4:
canvas height 360, bottom-reserved 0. -/
def cfgStills : Config := ⟨1280, 360, 0, "sans-serif", 25, 1, 5, 5, none, false⟩

/-- First of three still-top comments with timeline 0 and height 20. -/
def stillOne : Comment := ⟨0, 0, 1, ['1'], .top, 0xffffff, 20, 20, 20⟩

/-- See `stillOne`. -/
def stillTwo : Comment := ⟨0, 0, 2, ['2'], .top, 0xffffff, 20, 20, 20⟩

/-- See `stillOne`. -/
def stillThree : Comment := ⟨0, 0, 3, ['3'], .top, 0xffffff, 20, 20, 20⟩

/-- A configuration whose text filter matches exactly the text `"bad"`. -/
def cfgFil : Config :=
  ⟨100, 2, 0, "sans-serif", 25, 1, 5, 5, some (fun t => decide (t = ['b', 'a', 'd'])), false⟩

/-- A positioned comment whose text matches the `cfgFil` filter. -/
def biliposFilCmt : Comment := ⟨0, 0, 1, ['b', 'a', 'd'], .bilipos, 0xffffff, 25, 0, 0⟩

/-- A flow comment whose text matches the `cfgFil` filter. -/
def flowFilCmt : Comment := ⟨0, 0, 1, ['b', 'a', 'd'], .rtl, 0xffffff, 25, 25, 75⟩

/-- A red scroll comment for the C9 witness. -/
def redCmt : Comment := ⟨0, 0, 1, ['r'], .rtl, 0xff0000, 25, 25, 25⟩

/-- A 2-row canvas for the too-tall-comment scenario of claim C10. -/
def cfgTall : Config := ⟨100, 2, 0, "sans-serif", 25, 1, 5, 5, none, false⟩

/-- A comment taller than the whole `cfgTall` canvas (height 10 > 2). -/
def tallCmt : Comment := ⟨0, 0, 1, ['t'], .top, 0xffffff, 25, 10, 25⟩

/-- A configuration for the C9 witness. -/
def cfgRed : Config := ⟨1280, 720, 0, "sans-serif", 25, 1, 5, 5, none, false⟩

/-- The default `isborder` payload value. -/
def borderTrue : String := "true"

theorem CKind.code_inj : ∀ a b : CKind, a.code = b.code → a = b := by
  intro a b
  cases a <;> cases b <;> simp [CKind.code]

theorem sortKey_injective : Function.Injective sortKey := by
  intro a b h
  simp only [sortKey, toLex_inj, Prod.mk.injEq] at h
  obtain ⟨h1, h2, h3, h4, h5, h6, h7, h8, h9⟩ := h
  cases a
  cases b
  simp only at h1 h2 h3 h4 h5 h6 h7 h8 h9
  have h5' := CKind.code_inj _ _ h5
  simp_all

instance : IsTotal Comment commentLE :=
  ⟨fun a b => le_total (sortKey a) (sortKey b)⟩

instance : IsTrans Comment commentLE :=
  ⟨fun _ _ _ h1 h2 => le_trans h1 h2⟩

instance : IsAntisymm Comment commentLE :=
  ⟨fun _ _ h1 h2 => sortKey_injective (le_antisymm h1 h2)⟩

theorem pySort_eq_of_perm {l1 l2 : List Comment} (h : l1.Perm l2) : pySort l1 = pySort l2 :=
  List.eq_of_perm_of_sorted
    ((List.perm_insertionSort commentLE l1).trans
      (h.trans (List.perm_insertionSort commentLE l2).symm))
    (List.sorted_insertionSort commentLE l1)
    (List.sorted_insertionSort commentLE l2)


set_option maxRecDepth 40000 in
/-- C2 (counterexample).  The converter's output is not byte-identical
across two runs with the same input comment set and configuration: the
style identity is drawn by `random.randint(0, 0xffff)` at the start of
`ProcessComments` and appears in the header (and every event line), so two
runs whose draws differ — here 0x0000 versus 0x0001, on the empty comment
set — produce different documents. -/
theorem C2_determinism_counterexample :
    ProcessComments cfgDet 0 [] ≠ ProcessComments cfgDet 1 [] := by
  have hne : WriteASSHead cfgDet (styleidOf 0) ≠ WriteASSHead cfgDet (styleidOf 1) := by
    with_unfolding_all decide
  intro h
  simp only [ProcessComments, processSteps, processFold, List.filterMap_nil,
    List.cons.injEq, OutputEvent.line.injEq, and_true] at h
  exact hne h

/-- C2 (amended).  For a fixed style-identity draw, the output document is
a deterministic function of the input comment multiset and the
configuration: the driver sorts the comments with Python's tuple order
before the single layout pass, so any two arrival orders of the same
comments produce identical output. -/
theorem C2_determinism_amended (cfg : Config) (rand : ℕ) (l1 l2 : List Comment)
    (h : l1.Perm l2) :
    ProcessComments cfg rand (pySort l1) = ProcessComments cfg rand (pySort l2) := by
  rw [pySort_eq_of_perm h]

theorem C2_determinism_witness :
    ProcessComments cfgDet 0 (pySort [detCmtA, detCmtB]) =
      ProcessComments cfgDet 0 (pySort [detCmtB, detCmtA]) :=
  C2_determinism_amended cfgDet 0 [detCmtA, detCmtB] [detCmtB, detCmtA]
    (List.Perm.swap detCmtB detCmtA [])

set_option maxRecDepth 8000 in
/-- C4 (confirmed).  Three still-top comments with timeline 0 and height
20 px, processed in order on a canvas of height 360 with bottom-reserved 0,
are assigned rows 0, 20 and 40 in input order, none via the fallback. -/
theorem C4_three_stills :
    placements cfgStills [stillOne, stillTwo, stillThree] =
      [(stillOne, 0, false), (stillTwo, 20, false), (stillThree, 40, false)] := by
  with_unfolding_all rfl

/-- C6 (counterexample).  For source size (100, 100) and target size
(200, 200) the two aspect ratios are equal, yet `GetZoomFactor` returns
scale 2 (namely `TargetSize[0] / SourceSize[0]`), not scale 1. -/
theorem C6_zoom_counterexample :
    (100 : ℚ) / 100 = (200 : ℚ) / 200 ∧
      GetZoomFactor (100, 100) (200, 200) ≠ (1, 0, 0) := by
  constructor
  · norm_num
  · with_unfolding_all decide

/-- C6 (amended).  For equal aspect ratios (with nonzero heights and
nonzero source width) the zoom factor is `TargetSize[0] / SourceSize[0]` —
scale 1 exactly when the two widths agree — with zero X/Y offsets; for a
source twice as wide as the target at the same (positive) height the
result is scale 1/2, zero horizontal offset and nonzero vertical centering
offset `h / 4`. -/
theorem C6_zoom_amended (s0 s1 t0 t1 w h : ℚ) (hs0 : s0 ≠ 0) (hs1 : s1 ≠ 0) (ht1 : t1 ≠ 0)
    (heq : s0 / s1 = t0 / t1) (hw : 0 < w) (hh : 0 < h) :
    GetZoomFactor (s0, s1) (t0, t1) = (t0 / s0, 0, 0) ∧
    (GetZoomFactor (2 * w, h) (w, h) = (1 / 2, 0, h / 4) ∧ h / 4 ≠ 0) := by
  refine ⟨?_, ?_, ?_⟩
  · have hta : ¬ ((t0 : ℚ) / t1 < s0 / s1) := by rw [heq]; exact lt_irrefl _
    have hta2 : ¬ ((s0 : ℚ) / s1 < t0 / t1) := by rw [heq]; exact lt_irrefl _
    unfold GetZoomFactor GetZoomFactorO qdiv?
    simp only [if_neg hs1, if_neg ht1, if_neg hs0, Option.bind_eq_bind, Option.some_bind,
      if_neg hta, if_neg hta2]
    rfl
  · have hhne : h ≠ 0 := ne_of_gt hh
    have h2w : 2 * w ≠ 0 := by positivity
    have haspect : w / h < 2 * w / h := by
      rw [div_lt_div_iff₀ hh hh]
      nlinarith
    have hsa0 : 2 * w / h ≠ 0 := by positivity
    have e1 : w / (2 * w) = 1 / 2 := by
      rw [div_eq_div_iff h2w two_ne_zero]
      ring
    have e2 : w / (2 * w / h) = h / 2 := by
      field_simp
      ring
    unfold GetZoomFactor GetZoomFactorO qdiv?
    simp only [if_neg hhne, if_neg h2w, Option.bind_eq_bind, Option.some_bind,
      if_pos haspect, if_neg hsa0, e1, e2, Option.pure_def, Option.getD_some]
    simp only [Prod.mk.injEq, true_and]
    ring
  · positivity

theorem C6_zoom_witness :
    GetZoomFactor (3, 3) (6, 6) = ((6 : ℚ) / 3, 0, 0) ∧
    (GetZoomFactor (2 * 5, 7) (5, 7) = (1 / 2, 0, (7 : ℚ) / 4) ∧ (7 : ℚ) / 4 ≠ 0) :=
  C6_zoom_amended 3 3 6 6 5 7 (by norm_num) (by norm_num) (by norm_num) (by norm_num)
    (by norm_num) (by norm_num)

/-- C7 (counterexample).  With an unrecognized input-format identifier and
an empty list of input sources, `ReadComments` raises no error at all: the
format lookup sits inside the per-file loop, so the call returns the empty
(sorted) comment list instead of failing fast. -/
theorem C7_unknown_format_counterexample :
    CommentFormatMap "bogus" = none ∧
      ReadComments (fun _ _ _ => []) [] "bogus" 25 = .ok [] := by
  constructor
  · with_unfolding_all rfl
  · with_unfolding_all rfl

/-- C7 (amended).  For every non-empty list of input sources an
unrecognized format identifier is a fatal error (`ValueError`), raised on
the first file before any comment is parsed — the result does not depend
on the format adapters at all; an empty source list returns an empty
comment list without consulting the format identifier. -/
theorem C7_unknown_format_amended (parse : FmtTag → String → ℚ → List Comment)
    (files : List String) (fmt : String) (fontsize : ℚ)
    (hunk : CommentFormatMap fmt = none) (hne : files ≠ []) :
    ReadComments parse files fmt fontsize =
      .error ("Unknown comment file format: " ++ fmt) := by
  cases files with
  | nil => exact absurd rfl hne
  | cons f rest =>
    unfold ReadComments readCommentsLoop
    rw [hunk]

theorem C7_unknown_format_witness :
    ReadComments (fun _ _ _ => []) [FilterBadChars "x"] "bogus" 25 =
      .error ("Unknown comment file format: " ++ "bogus") :=
  C7_unknown_format_amended (fun _ _ _ => []) [FilterBadChars "x"] "bogus" 25
    (by with_unfolding_all rfl) (by simp)

/-- C5 (counterexample).  The text filter does not exclude positioned
comments: `biliposFilCmt` matches the configured filter, yet the run still
hands it to the positioned-comment emitter (an event for it appears in the
output), because the filter test sits inside the `isinstance(i[4], int)`
branch of `ProcessComments`. -/
theorem C5_filter_counterexample :
    filterMatches cfgFil biliposFilCmt = true ∧
    ProcessComments cfgFil 0 [biliposFilCmt] =
      [.line (WriteASSHead cfgFil (styleidOf 0)), .biliposEvent biliposFilCmt] ∧
    ¬ filterExcludesAll cfgFil [biliposFilCmt] := by
  refine ⟨by with_unfolding_all rfl, by with_unfolding_all rfl, ?_⟩
  intro hall
  have hsteps : processSteps cfgFil (styleidOf 0) [biliposFilCmt] =
      [(initRows cfgFil, biliposFilCmt, .biliposOut, some (.biliposEvent biliposFilCmt))] := by
    with_unfolding_all rfl
  have h := hall (initRows cfgFil, biliposFilCmt, .biliposOut,
      some (.biliposEvent biliposFilCmt))
    (by rw [hsteps]; exact List.mem_singleton_self _) (by with_unfolding_all rfl)
  exact absurd h.1 (by decide)

/-- C5 (amended).  The text filter excludes exactly the matching flow
comments — such a comment produces no event and leaves the row tables
untouched — while a matching positioned (`bilipos`) comment bypasses the
filter entirely and is handed to the positioned-comment emitter. -/
theorem C5_filter_amended (cfg : Config) (styleid : String) (rows : RowsTable) (c : Comment)
    (hm : filterMatches cfg c = true) :
    (c.kind.isFlow = true → processOne cfg styleid rows c = (rows, none, .filtered)) ∧
    (c.kind = .bilipos →
      processOne cfg styleid rows c = (rows, some (.biliposEvent c), .biliposOut)) := by
  constructor
  · intro hf
    simp [processOne, hf, hm]
  · intro hb
    simp [processOne, hb, CKind.isFlow]

theorem C5_filter_witness :
    processOne cfgFil (styleidOf 0) (initRows cfgFil) flowFilCmt =
      (initRows cfgFil, none, .filtered) :=
  (C5_filter_amended cfgFil (styleidOf 0) (initRows cfgFil) flowFilCmt
    (by with_unfolding_all rfl)).1 rfl

/-- C9 (confirmed).  Every color override emitted for a comment — by the
flow-comment writer `WriteComment` and by the positioned-comment writer
`WriteCommentBilibiliPositioned` alike — is `ConvertColor(c[5])`, i.e. the
conversion at its built-in default resolution (1280, 576), never at the
configured canvas size; at that default the `width < 1280 and height < 576`
pass-through branch is unreachable, so every non-black non-white color gets
the BT.601→BT.709 matrix applied regardless of the configured canvas. -/
theorem C9_color_default (cfg : Config) (c : Comment) (row : ℕ)
    (size zoomScale lifetime : ℚ) (fontface : Option (List Char)) (fa ta : ℤ) (ib : String)
    (hb : c.color ≠ 0x000000) (hw : c.color ≠ 0xffffff) :
    convertColorDefault c.color = bt709Hex c.color ∧
    ("\\c&H" ++ convertColorDefault c.color ++ "&") ∈ WriteCommentStyles cfg c row ∧
    ("\\c&H" ++ convertColorDefault c.color ++ "&") ∈
      biliposTailStyles c.color size zoomScale fontface fa ta lifetime ib := by
  refine ⟨?_, ?_, ?_⟩
  · unfold convertColorDefault ConvertColor bt709Hex
    rw [if_neg hb, if_neg hw, if_neg (by norm_num : ¬((1280 : ℤ) < 1280 ∧ (576 : ℤ) < 576))]
  · unfold WriteCommentStyles
    simp only [List.mem_append, List.mem_cons, if_pos hw]
    tauto
  · unfold biliposTailStyles
    simp only [List.mem_append, List.mem_cons, if_pos hw]
    tauto

theorem C9_color_default_witness :
    convertColorDefault redCmt.color = bt709Hex redCmt.color ∧
    ("\\c&H" ++ convertColorDefault redCmt.color ++ "&") ∈ WriteCommentStyles cfgRed redCmt 0 ∧
    ("\\c&H" ++ convertColorDefault redCmt.color ++ "&") ∈
      biliposTailStyles redCmt.color 25 1 none 0 0 (9/2) borderTrue :=
  C9_color_default cfgRed redCmt 0 25 1 (9/2) none 0 0 borderTrue
    (by with_unfolding_all decide) (by with_unfolding_all decide)

theorem foldl_set_length (c : Comment) (row : ℕ) :
    ∀ (xs : List ℕ) (l : Lane),
      (xs.foldl (fun lacc i => lacc.set (row + i) (some c)) l).length = l.length := by
  intro xs
  induction xs with
  | nil => intro l; rfl
  | cons x rest ih =>
    intro l
    rw [List.foldl_cons, ih, List.length_set]

theorem MarkCommentRow_lane_length (rows : RowsTable) (c : Comment) (row : ℕ) :
    ((MarkCommentRow rows c row).getD c.kind.idx []).length = (laneOf rows c).length := by
  unfold MarkCommentRow laneOf
  by_cases h : c.kind.idx < rows.length
  · rw [List.getD_eq_getElem?_getD, List.getElem?_set_self (by simpa using h),
      Option.getD_some, foldl_set_length]
  · rw [List.set_eq_of_length_le (le_of_not_lt h)]

theorem searchFuel_zero (cfg : Config) (c : Comment) (h : rowmaxQ cfg c < 0) :
    searchFuel cfg c = 0 := by
  unfold searchFuel
  have : ⌊rowmaxQ cfg c⌋ < 0 := by
    rw [Int.floor_lt]
    exact_mod_cast h
  omega

/-- C10 (confirmed).  A flow comment taller than the available vertical
span (`height - bottomReserved - c[7] < 0`) is handled without error: the
row-search loop body never runs, so in degraded mode the comment is
dropped (no event, row tables unchanged), and otherwise
`FindAlternativeRow` scans an empty range and yields row 0, where the
comment is placed; `MarkCommentRow`'s marking silently stops at the table
boundary, so the lane keeps its size. -/
theorem C10_tall_comment (cfg : Config) (styleid : String) (rows : RowsTable) (c : Comment)
    (hflow : c.kind.isFlow = true) (hfil : filterMatches cfg c = false)
    (htall : rowmaxQ cfg c < 0) :
    (cfg.reduced = true → processOne cfg styleid rows c = (rows, none, .droppedReduced)) ∧
    (cfg.reduced = false →
      processOne cfg styleid rows c =
        (MarkCommentRow rows c 0, some (.line (WriteComment cfg c 0 styleid)),
          .placed 0 true) ∧
      ((MarkCommentRow rows c 0).getD c.kind.idx []).length = (laneOf rows c).length) := by
  have hsearch : searchRow cfg rows c = none := by
    unfold searchRow
    rw [searchFuel_zero cfg c htall]
    rfl
  have hfa : FindAlternativeRow cfg rows c = 0 := by
    unfold FindAlternativeRow
    have hc : cfg.height - cfg.bottomReserved < ⌈c.height⌉ := by
      rw [Int.lt_ceil]
      have : ((cfg.height - cfg.bottomReserved : ℤ) : ℚ) - c.height < 0 := htall
      push_cast at this ⊢
      linarith
    have hn : (cfg.height - cfg.bottomReserved - ⌈c.height⌉).toNat = 0 := by omega
    rw [hn]
    rfl
  constructor
  · intro hred
    unfold processOne
    rw [hflow, hfil, hsearch, hred]
    simp
  · intro hred
    constructor
    · unfold processOne
      rw [hflow, hfil, hsearch, hred, hfa]
      simp
    · exact MarkCommentRow_lane_length rows c 0

theorem C10_tall_comment_witness :
    processOne cfgTall (styleidOf 0) (initRows cfgTall) tallCmt =
      (MarkCommentRow (initRows cfgTall) tallCmt 0,
        some (.line (WriteComment cfgTall tallCmt 0 (styleidOf 0))), .placed 0 true) :=
  ((C10_tall_comment cfgTall (styleidOf 0) (initRows cfgTall) tallCmt
    (by with_unfolding_all decide) (by with_unfolding_all rfl)
    (by with_unfolding_all decide)).2 rfl).1

theorem length_lstripSpace (L : List Char) :
    (L.takeWhile (· = ' ')).length + (lstripSpace L).length = L.length := by
  unfold lstripSpace
  conv_rhs => rw [← List.takeWhile_append_dropWhile (p := (· = ' ')) (l := L)]
  rw [List.length_append]

theorem length_rstripSpace (L : List Char) :
    (L.reverse.takeWhile (· = ' ')).length + (rstripSpace L).length = L.length := by
  unfold rstripSpace
  rw [List.length_reverse]
  have h := congrArg List.length
    (List.takeWhile_append_dropWhile (p := (· = ' ')) (l := L.reverse))
  rw [List.length_append, List.length_reverse] at h
  omega

theorem lstrip_of_all (L : List Char) (h : L.all (· = ' ') = true) : lstripSpace L = [] :=
  List.dropWhile_eq_nil_iff.mpr (fun x hx => List.all_eq_true.mp h x hx)

theorem rstrip_of_all (L : List Char) (h : L.all (· = ' ') = true) : rstripSpace L = [] := by
  unfold rstripSpace
  rw [List.dropWhile_eq_nil_iff.mpr
    (fun x hx => List.all_eq_true.mp h x (List.mem_reverse.mp hx))]
  rfl

theorem stripSpace_ne_nil (L : List Char) (h : ¬ L.all (· = ' ') = true) :
    stripSpace L ≠ [] := by
  unfold stripSpace rstripSpace
  intro hc
  apply h
  rw [List.all_eq_true]
  intro x hx
  have hrev : (lstripSpace L).reverse.dropWhile (· = ' ') = [] := by
    have := congrArg List.reverse hc
    simpa using this
  have hall2 : ∀ y ∈ lstripSpace L, y = ' ' := by
    intro y hy
    have := List.dropWhile_eq_nil_iff.mp hrev y (List.mem_reverse.mpr hy)
    simpa using this
  rw [← List.takeWhile_append_dropWhile (p := (· = ' ')) (l := L)] at hx
  rcases List.mem_append.mp hx with hx1 | hx2
  · simpa using List.mem_takeWhile_imp hx1
  · simpa using hall2 x hx2

theorem escapeLine_eq_amended (L : List Char) : escapeLine L = amendedEscapeLine L := by
  by_cases hall : L.all (· = ' ') = true
  · rcases eq_or_ne L [] with hnil | hnil
    · subst hnil
      rfl
    · have hl := lstrip_of_all L hall
      have hr := rstrip_of_all L hall
      have hs : stripSpace L = [] := by
        unfold stripSpace
        rw [hl]
        rfl
      have hlen : L.length ≠ 0 := by simpa using hnil
      unfold escapeLine ReplaceLeadingSpace amendedEscapeLine
      rw [hs, hl, hr, if_pos hall, if_neg hnil]
      simp only [List.length_nil, Nat.sub_zero]
      rw [if_neg hlen]
      rw [if_neg (by simp [hlen] : ¬(List.replicate L.length figureSpace ++ [] ++
        List.replicate L.length figureSpace = []))]
      rw [List.append_nil, two_mul, List.replicate_add]
  · have hlenl := length_lstripSpace L
    have hlenr := length_rstripSpace L
    have hmid := stripSpace_ne_nil L hall
    have hLne : L ≠ [] := by
      intro hc
      subst hc
      exact hall rfl
    unfold escapeLine ReplaceLeadingSpace amendedEscapeLine
    rw [if_neg hall]
    by_cases hcond : L.length = (stripSpace L).length
    · -- no spaces are stripped: the line has no leading or trailing spaces
      have h1 : (stripSpace L).length ≤ (lstripSpace L).length := by
        unfold stripSpace rstripSpace
        have := congrArg List.length
          (List.takeWhile_append_dropWhile (p := (· = ' ')) (l := (lstripSpace L).reverse))
        rw [List.length_append] at this
        simp only [List.length_reverse] at this ⊢
        omega
      have h2 : (lstripSpace L).length ≤ L.length := by omega
      have hls : lstripSpace L = L := by
        unfold lstripSpace
        apply List.IsSuffix.eq_of_length (List.dropWhile_suffix _)
        unfold lstripSpace at h1 h2
        omega
      have hstrip : stripSpace L = L := by
        have hlen2 : (stripSpace L).length = L.length := hcond.symm
        unfold stripSpace at hlen2 ⊢
        rw [hls] at hlen2 ⊢
        unfold rstripSpace at hlen2 ⊢
        have : L.reverse.dropWhile (· = ' ') = L.reverse := by
          apply List.IsSuffix.eq_of_length (List.dropWhile_suffix _)
          rw [List.length_reverse] at hlen2 ⊢
          omega
        rw [this, List.reverse_reverse]
      have htake : (L.takeWhile (· = ' ')).length = 0 := by
        rw [hls] at hlenl
        omega
      have hrs : rstripSpace L = L := by
        have h3 := hstrip
        unfold stripSpace at h3
        rw [hls] at h3
        exact h3
      have htrail : (L.reverse.takeWhile (· = ' ')).length = 0 := by
        rw [hrs] at hlenr
        omega
      rw [if_pos hcond, htake, htrail, hstrip]
      simp [hLne]
    · rw [if_neg hcond]
      have hllen : L.length - (lstripSpace L).length = (L.takeWhile (· = ' ')).length := by
        omega
      have hrlen : L.length - (rstripSpace L).length =
          (L.reverse.takeWhile (· = ' ')).length := by
        omega
      rw [hllen, hrlen]
      rw [if_neg (by simp [hmid] : ¬(List.replicate (L.takeWhile (· = ' ')).length figureSpace ++
        stripSpace L ++
        List.replicate (L.reverse.takeWhile (· = ' ')).length figureSpace = []))]

/-- C8 (counterexample).  On the one-space line `" "` the escaping is not
one-for-one: the single space is counted both as leading and as trailing,
so `ASSEscape` produces two placeholder characters where the claim's
one-for-one replacement produces one. -/
theorem C8_escape_counterexample :
    ASSEscape [' '] ≠ specOneForOneLine [' '] ∧
    (ASSEscape [' ']).length = 2 ∧ specOneForOneLine [' '] = [figureSpace] := by
  refine ⟨by decide, by decide, by decide⟩

/-- C8 (amended).  For every input string: after escaping of backslashes
and braces, each embedded newline becomes the `\N` line-break sequence;
on each line containing a non-space character the leading and trailing
spaces are replaced one-for-one by the figure-space placeholder with the
interior unchanged; a line of `k ≥ 1` spaces becomes `2k` placeholders
(each space is counted once as leading and once as trailing); and a fully
empty line becomes exactly one space. -/
theorem C8_escape_amended (s : List Char) :
    ASSEscape s =
      List.intercalate ['\\', 'N']
        (((escapeSpecials s).splitOn '\n').map amendedEscapeLine) := by
  unfold ASSEscape
  rw [show escapeLine = amendedEscapeLine from funext escapeLine_eq_amended]

theorem commentEqb_eq {a b : Comment} (h : commentEqb a b = true) : a = b := by
  unfold commentEqb at h
  simp only [Bool.and_eq_true, decide_eq_true_eq] at h
  obtain ⟨⟨⟨⟨⟨⟨⟨⟨h1, h2⟩, h3⟩, h4⟩, h5⟩, h6⟩, h7⟩, h8⟩, h9⟩ := h
  cases a
  cases b
  simp_all

theorem slotEqb_eq {a b : Option Comment} (h : slotEqb a b = true) : a = b := by
  cases a with
  | none =>
    cases b with
    | none => rfl
    | some y => exact absurd h (by simp [slotEqb])
  | some x =>
    cases b with
    | none => exact absurd h (by simp [slotEqb])
    | some y => exact congrArg some (commentEqb_eq h)

theorem testRowsLoop_ge (lane : Lane) (blocks : Option Comment → Bool) (rowmax : ℤ) (cap : ℚ) :
    ∀ fuel row res target, res ≤ testRowsLoop lane blocks rowmax cap fuel row res target := by
  intro fuel
  induction fuel with
  | zero => intro row res target; exact le_refl _
  | succ f ih =>
    intro row res target
    unfold testRowsLoop
    by_cases hc : (row : ℤ) < rowmax ∧ (res : ℚ) < cap
    · rw [if_pos hc]
      by_cases hne : slotEqb (lane.getD row none) target = false
      · rw [if_pos hne]
        by_cases hb : blocks (lane.getD row none) = true
        · rw [if_pos hb]
        · rw [if_neg hb]
          exact le_trans (Nat.le_succ res) (ih (row + 1) (res + 1) _)
      · rw [if_neg hne]
        exact le_trans (Nat.le_succ res) (ih (row + 1) (res + 1) target)
    · rw [if_neg hc]

theorem testRowsLoop_free (lane : Lane) (blocks : Option Comment → Bool) (rowmax : ℤ) (cap : ℚ) :
    ∀ fuel row res target, blocks target = false →
      ∀ i < testRowsLoop lane blocks rowmax cap fuel row res target - res,
        blocks (lane.getD (row + i) none) = false := by
  intro fuel
  induction fuel with
  | zero =>
    intro row res target _ i hi
    simp [testRowsLoop] at hi
  | succ f ih =>
    intro row res target htar i hi
    rw [testRowsLoop] at hi
    by_cases hc : (row : ℤ) < rowmax ∧ (res : ℚ) < cap
    · rw [if_pos hc] at hi
      by_cases hne : slotEqb (lane.getD row none) target = false
      · rw [if_pos hne] at hi
        by_cases hb : blocks (lane.getD row none) = true
        · rw [if_pos hb] at hi
          omega
        · rw [if_neg hb] at hi
          have hb' : blocks (lane.getD row none) = false := by
            revert hb
            cases blocks (lane.getD row none) <;> simp
          cases i with
          | zero => simpa using hb'
          | succ j =>
            have hge := testRowsLoop_ge lane blocks rowmax cap f (row + 1) (res + 1)
              (lane.getD row none)
            have := ih (row + 1) (res + 1) (lane.getD row none) hb' j (by omega)
            rw [show row + 1 + j = row + (j + 1) by omega] at this
            exact this
      · rw [if_neg hne] at hi
        have heq : lane.getD row none = target := by
          apply slotEqb_eq
          revert hne
          cases slotEqb (lane.getD row none) target <;> simp
        cases i with
        | zero => rw [Nat.add_zero, heq]; exact htar
        | succ j =>
          have := ih (row + 1) (res + 1) target htar j (by omega)
          rw [show row + 1 + j = row + (j + 1) by omega] at this
          exact this
    · rw [if_neg hc] at hi
      omega

theorem testRowsLoop_stop (lane : Lane) (blocks : Option Comment → Bool) (rowmax : ℤ) (cap : ℚ) :
    ∀ (fuel : ℕ) (row res : ℕ) (target : Option Comment), (rowmax - (row : ℤ)).toNat ≤ fuel →
      ((testRowsLoop lane blocks rowmax cap fuel row res target : ℕ) : ℚ) < cap →
      (rowmax ≤ ((row + (testRowsLoop lane blocks rowmax cap fuel row res target - res) : ℕ) : ℤ) ∨
        blocks (lane.getD (row + (testRowsLoop lane blocks rowmax cap fuel row res target - res)) none) = true) := by
  intro fuel
  induction fuel with
  | zero =>
    intro row res target hfuel _
    left
    rw [show testRowsLoop lane blocks rowmax cap 0 row res target = res from rfl]
    omega
  | succ f ih =>
    intro row res target hfuel hcap
    rw [testRowsLoop] at hcap ⊢
    by_cases hc : (row : ℤ) < rowmax ∧ (res : ℚ) < cap
    · rw [if_pos hc] at hcap ⊢
      by_cases hne : slotEqb (lane.getD row none) target = false
      · rw [if_pos hne] at hcap ⊢
        by_cases hb : blocks (lane.getD row none) = true
        · rw [if_pos hb] at hcap ⊢
          right
          simpa using hb
        · rw [if_neg hb] at hcap ⊢
          have hge := testRowsLoop_ge lane blocks rowmax cap f (row + 1) (res + 1)
            (lane.getD row none)
          have hrec := ih (row + 1) (res + 1) (lane.getD row none) (by omega) hcap
          rw [show row + 1 + (testRowsLoop lane blocks rowmax cap f (row + 1) (res + 1)
              (lane.getD row none) - (res + 1)) =
            row + (testRowsLoop lane blocks rowmax cap f (row + 1) (res + 1)
              (lane.getD row none) - res) by omega] at hrec
          exact hrec
      · rw [if_neg hne] at hcap ⊢
        have hge := testRowsLoop_ge lane blocks rowmax cap f (row + 1) (res + 1) target
        have hrec := ih (row + 1) (res + 1) target (by omega) hcap
        rw [show row + 1 + (testRowsLoop lane blocks rowmax cap f (row + 1) (res + 1) target
            - (res + 1)) =
          row + (testRowsLoop lane blocks rowmax cap f (row + 1) (res + 1) target - res)
            by omega] at hrec
        exact hrec
    · rw [if_neg hc] at hcap ⊢
      left
      rcases not_and_or.mp hc with h1 | h2
      · push_neg at h1
        omega
      · exact absurd hcap h2
theorem slotBlocks_none (cfg : Config) (c : Comment) : slotBlocks cfg c none = false := rfl

theorem TestFreeRows_free (cfg : Config) (rows : RowsTable) (c : Comment) (row : ℕ) :
    ∀ i < TestFreeRows cfg rows c row,
      slotBlocks cfg c ((laneOf rows c).getD (row + i) none) = false := by
  intro i hi
  have := testRowsLoop_free (laneOf rows c) (slotBlocks cfg c)
    (cfg.height - cfg.bottomReserved) c.height
    ((cfg.height - cfg.bottomReserved) - (row : ℤ)).toNat row 0 none
    (slotBlocks_none cfg c) i
  apply this
  simp only [TestFreeRows] at hi
  omega

theorem TestFreeRows_stop (cfg : Config) (rows : RowsTable) (c : Comment) (row : ℕ)
    (hcap : ((TestFreeRows cfg rows c row : ℕ) : ℚ) < c.height) :
    cfg.height - cfg.bottomReserved ≤ ((row + TestFreeRows cfg rows c row : ℕ) : ℤ) ∨
      slotBlocks cfg c ((laneOf rows c).getD (row + TestFreeRows cfg rows c row) none) = true := by
  have := testRowsLoop_stop (laneOf rows c) (slotBlocks cfg c)
    (cfg.height - cfg.bottomReserved) c.height
    ((cfg.height - cfg.bottomReserved) - (row : ℤ)).toNat row 0 none (le_refl _)
  simp only [TestFreeRows] at hcap ⊢
  simp only [Nat.sub_zero] at this
  exact this hcap

theorem natCeil_ge (q : ℚ) : q ≤ ((natCeil q : ℕ) : ℚ) := by
  unfold natCeil
  rcases le_or_lt 0 ⌈q⌉ with h | h
  · rw [show (((⌈q⌉.toNat : ℕ) : ℚ)) = ((⌈q⌉ : ℤ) : ℚ) by exact_mod_cast congrArg Int.cast (Int.toNat_of_nonneg h)]
    exact Int.le_ceil q
  · have hq : q ≤ (⌈q⌉ : ℚ) := Int.le_ceil q
    have : (⌈q⌉ : ℚ) < 0 := by exact_mod_cast h
    have h0 : (0 : ℚ) ≤ ((⌈q⌉.toNat : ℕ) : ℚ) := by positivity
    linarith

theorem lt_natCeil_of_lt {n : ℕ} {q : ℚ} (h : (n : ℚ) < q) : n < natCeil q := by
  unfold natCeil
  have h1 : (n : ℤ) < ⌈q⌉ := Int.lt_ceil.mpr (by exact_mod_cast h)
  omega

theorem natCeil_le_of_le {q : ℚ} {n : ℕ} (h : q ≤ (n : ℚ)) : natCeil q ≤ n := by
  unfold natCeil
  have h1 : ⌈q⌉ ≤ (n : ℤ) := Int.ceil_le.mpr (by exact_mod_cast h)
  omega

theorem not_freeRunAt_of_gt (cfg : Config) (c : Comment) (lane : Lane) (s : ℕ)
    (h : rowmaxQ cfg c < (s : ℚ)) : ¬ freeRunAt cfg c lane s := by
  intro hfr
  have hfit := hfr.1
  unfold rowmaxQ at h
  have h2 := natCeil_ge c.height
  have h3 : ((cfg.height - cfg.bottomReserved : ℤ) : ℚ) <
      ((s : ℕ) : ℚ) + ((natCeil c.height : ℕ) : ℚ) := by linarith
  have h4 : (cfg.height - cfg.bottomReserved : ℤ) < ((s + natCeil c.height : ℕ) : ℤ) := by
    exact_mod_cast h3
  omega

theorem not_freeRunAt_skip (cfg : Config) (rows : RowsTable) (c : Comment) (row s : ℕ)
    (hn : ((TestFreeRows cfg rows c row : ℕ) : ℚ) < c.height)
    (hs1 : row ≤ s) (hs2 : s ≤ row + TestFreeRows cfg rows c row) :
    ¬ freeRunAt cfg c (laneOf rows c) s := by
  intro hfr
  have hceil : TestFreeRows cfg rows c row < natCeil c.height := lt_natCeil_of_lt hn
  rcases TestFreeRows_stop cfg rows c row hn with hA | hB
  · have hfit := hfr.1
    omega
  · have hfree := hfr.2 (row + TestFreeRows cfg rows c row - s) (by omega)
    rw [show s + (row + TestFreeRows cfg rows c row - s) =
      row + TestFreeRows cfg rows c row by omega] at hfree
    rw [hfree] at hB
    simp at hB

theorem searchRowLoop_none_sound (cfg : Config) (rows : RowsTable) (c : Comment) :
    ∀ (fuel row : ℕ), (⌊rowmaxQ cfg c⌋ + 1 - (row : ℤ)).toNat ≤ fuel →
      searchRowLoop cfg rows c (rowmaxQ cfg c) fuel row = none →
      ∀ s : ℕ, row ≤ s → ¬ freeRunAt cfg c (laneOf rows c) s := by
  intro fuel
  induction fuel with
  | zero =>
    intro row hfuel _ s hs
    apply not_freeRunAt_of_gt
    have h1 : ⌊rowmaxQ cfg c⌋ < (s : ℤ) := by omega
    have h2 : ((⌊rowmaxQ cfg c⌋ : ℤ) : ℚ) + 1 ≤ ((s : ℤ) : ℚ) := by
      exact_mod_cast h1
    have h3 := Int.lt_floor_add_one (rowmaxQ cfg c)
    push_cast at h2 ⊢
    linarith
  | succ f ih =>
    intro row hfuel hnone s hs
    rw [searchRowLoop] at hnone
    by_cases hc : ((row : ℕ) : ℚ) ≤ rowmaxQ cfg c
    · rw [if_pos hc] at hnone
      by_cases hfound : c.height ≤ ((TestFreeRows cfg rows c row : ℕ) : ℚ)
      · rw [if_pos hfound] at hnone
        exact absurd hnone (by simp)
      · rw [if_neg hfound] at hnone
        push_neg at hfound
        have hk1 : 1 ≤ (if TestFreeRows cfg rows c row = 0 then 1
            else TestFreeRows cfg rows c row) := by
          split <;> omega
        have hk2 : (if TestFreeRows cfg rows c row = 0 then 1
            else TestFreeRows cfg rows c row) ≤ TestFreeRows cfg rows c row + 1 := by
          split <;> omega
        rcases lt_or_ge s (row + (if TestFreeRows cfg rows c row = 0 then 1
            else TestFreeRows cfg rows c row)) with hlt | hge
        · exact not_freeRunAt_skip cfg rows c row s hfound hs (by omega)
        · exact ih (row + (if TestFreeRows cfg rows c row = 0 then 1
            else TestFreeRows cfg rows c row)) (by omega) hnone s hge
    · intro hfr
      apply not_freeRunAt_of_gt cfg c (laneOf rows c) s _ hfr
      push_neg at hc
      have : ((row : ℕ) : ℚ) ≤ ((s : ℕ) : ℚ) := by exact_mod_cast hs
      linarith

theorem searchRowLoop_found_sound (cfg : Config) (rows : RowsTable) (c : Comment) :
    ∀ (fuel row r : ℕ), searchRowLoop cfg rows c (rowmaxQ cfg c) fuel row = some r →
      ((r : ℕ) : ℚ) ≤ rowmaxQ cfg c ∧
        c.height ≤ ((TestFreeRows cfg rows c r : ℕ) : ℚ) := by
  intro fuel
  induction fuel with
  | zero =>
    intro row r h
    exact absurd h (by simp [searchRowLoop])
  | succ f ih =>
    intro row r h
    rw [searchRowLoop] at h
    by_cases hc : ((row : ℕ) : ℚ) ≤ rowmaxQ cfg c
    · rw [if_pos hc] at h
      by_cases hfound : c.height ≤ ((TestFreeRows cfg rows c row : ℕ) : ℚ)
      · rw [if_pos hfound] at h
        have : row = r := by simpa using h
        subst this
        exact ⟨hc, hfound⟩
      · rw [if_neg hfound] at h
        exact ih _ r h
    · rw [if_neg hc] at h
      exact absurd h (by simp)

theorem searchRow_none_sound (cfg : Config) (rows : RowsTable) (c : Comment)
    (h : searchRow cfg rows c = none) :
    ∀ s : ℕ, ¬ freeRunAt cfg c (laneOf rows c) s := by
  intro s
  apply searchRowLoop_none_sound cfg rows c (searchFuel cfg c) 0 _ h s (Nat.zero_le s)
  unfold searchFuel
  omega

theorem searchRow_some_sound (cfg : Config) (rows : RowsTable) (c : Comment) (r : ℕ)
    (hh : 0 < c.height) (h : searchRow cfg rows c = some r) :
    freeRunAt cfg c (laneOf rows c) r := by
  obtain ⟨hle, hcap⟩ := searchRowLoop_found_sound cfg rows c _ 0 r h
  constructor
  · have h1 : ((r : ℕ) : ℚ) + c.height ≤ ((cfg.height - cfg.bottomReserved : ℤ) : ℚ) := by
      unfold rowmaxQ at hle
      linarith
    have h2 : (0 : ℤ) < ⌈c.height⌉ := Int.ceil_pos.mpr hh
    have h3 : ⌈c.height + ((r : ℤ) : ℚ)⌉ = ⌈c.height⌉ + (r : ℤ) := Int.ceil_add_int _ _
    have h4 : ⌈c.height + ((r : ℤ) : ℚ)⌉ ≤ cfg.height - cfg.bottomReserved := by
      apply Int.ceil_le.mpr
      push_cast
      push_cast at h1
      linarith
    unfold natCeil
    omega
  · intro i hi
    have hn : natCeil c.height ≤ TestFreeRows cfg rows c r := natCeil_le_of_le hcap
    exact TestFreeRows_free cfg rows c r i (by omega)

theorem processOne_placed_elim (cfg : Config) (styleid : String) (rows : RowsTable)
    (c : Comment) (row : ℕ) (fb : Bool)
    (h : (processOne cfg styleid rows c).2.2 = .placed row fb) :
    (fb = false → searchRow cfg rows c = some row) ∧
    (fb = true → searchRow cfg rows c = none) := by
  unfold processOne at h
  by_cases hflow : c.kind.isFlow = true
  · rw [if_pos hflow] at h
    by_cases hfil : filterMatches cfg c = true
    · rw [if_pos hfil] at h
      exact absurd h (by simp)
    · rw [if_neg hfil] at h
      cases hsearch : searchRow cfg rows c with
      | some r =>
        rw [hsearch] at h
        simp only at h
        obtain ⟨h1, h2⟩ := StepResult.placed.inj h
        subst h1
        subst h2
        exact ⟨fun _ => rfl, fun hc => by exact absurd hc (by simp)⟩
      | none =>
        rw [hsearch] at h
        by_cases hred : cfg.reduced = true
        · rw [if_pos hred] at h
          exact absurd h (by simp)
        · rw [if_neg hred] at h
          simp only at h
          obtain ⟨h1, h2⟩ := StepResult.placed.inj h
          subst h2
          exact ⟨fun hc => by exact absurd hc (by simp), fun _ => rfl⟩
  · rw [if_neg hflow] at h
    exact absurd h (by simp)

theorem processFold_sound (cfg : Config) (styleid : String) :
    ∀ (cs : List Comment) (rows0 : RowsTable)
      (e : RowsTable × Comment × StepResult × Option OutputEvent),
      e ∈ processFold cfg styleid rows0 cs →
      e.2.2.1 = (processOne cfg styleid e.1 e.2.1).2.2 := by
  intro cs
  induction cs with
  | nil =>
    intro rows0 e he
    exact absurd he (by simp [processFold])
  | cons c rest ih =>
    intro rows0 e he
    rw [processFold] at he
    rcases List.mem_cons.mp he with h1 | h2
    · subst h1
      rfl
    · exact ih _ e h2

theorem commentLE_of_timeline_lt {a b : Comment} (h : a.timeline < b.timeline) :
    commentLE a b := by
  unfold commentLE sortKey
  rw [Prod.Lex.le_iff]
  left
  exact h

set_option maxRecDepth 8000 in
/-- C1 (counterexample).  A sorted three-comment marquee input on which the
pairwise non-overlap property fails with no fallback placement involved in
the failing pair: `laneCmtA` (wide, slow) is placed normally at rows 0-1;
`laneCmtB` is blocked by it everywhere and is placed over it via the
degraded-overlap fallback, overwriting the row claims; `laneCmtC` then
tests only against `laneCmtB` (the latest claimant), finds the rows free,
and is placed normally at rows 0-1 — although `laneCmtA`, whose trailing
edge has not yet fully entered the screen, still blocks it under the
marquee rule.  Neither `laneCmtA` nor `laneCmtC` was placed by the
fallback. -/
theorem C1_nonoverlap_counterexample :
    sortedInput [laneCmtA, laneCmtB, laneCmtC] ∧
      ¬ c1Pairwise cfgLaneC1 [laneCmtA, laneCmtB, laneCmtC] := by
  constructor
  · have hAB : commentLE laneCmtA laneCmtB :=
      commentLE_of_timeline_lt (by norm_num [laneCmtA, laneCmtB])
    have hAC : commentLE laneCmtA laneCmtC :=
      commentLE_of_timeline_lt (by norm_num [laneCmtA, laneCmtC])
    have hBC : commentLE laneCmtB laneCmtC :=
      commentLE_of_timeline_lt (by norm_num [laneCmtB, laneCmtC])
    refine List.Pairwise.cons ?_ (List.Pairwise.cons ?_ (List.pairwise_singleton _ _))
    · intro x hx
      rcases List.mem_cons.mp hx with h | h
      · subst h
        exact hAB
      · rw [List.mem_singleton] at h
        subst h
        exact hAC
    · intro x hx
      rw [List.mem_singleton] at hx
      subst hx
      exact hBC
  · intro hp
    have hplac : placements cfgLaneC1 [laneCmtA, laneCmtB, laneCmtC] =
        [(laneCmtA, 0, false), (laneCmtB, 0, true), (laneCmtC, 0, false)] := by
      with_unfolding_all rfl
    unfold c1Pairwise at hp
    rw [hplac] at hp
    have hP := (List.pairwise_cons.mp hp).1 (laneCmtC, 0, false)
      (by simp)
    have hko : laneCmtA.kind = laneCmtC.kind := rfl
    have hov : rangesOverlap 0 laneCmtA.height 0 laneCmtC.height := by
      unfold rangesOverlap
      have hc2 : natCeil (2 : ℚ) = 2 := by with_unfolding_all rfl
      have hA : laneCmtA.height = 2 := rfl
      have hC : laneCmtC.height = 2 := rfl
      rw [hA, hC, hc2]
      omega
    have hblocks : occupantBlocks cfgLaneC1 laneCmtC laneCmtA = true := by
      with_unfolding_all decide
    have := hP hko rfl rfl hov
    rw [hblocks] at this
    simp at this

/-- C1 (amended).  For every input sequence: a comment placed via the
normal path claims only row-units that are, at the moment of placement,
each either empty or held by an occupant that does not block it under its
kind's overlap rule (each row is tested against its latest claimant only,
not the full history — so two normally-placed comments may still overlap
when an intervening fallback placement re-claimed the shared rows in
between, as the counterexample shows); and the degraded-overlap fallback
is taken only when no free run of rows exists anywhere. -/
theorem C1_nonoverlap_amended (cfg : Config) (styleid : String) (cs : List Comment)
    (st : RowsTable) (c : Comment) (res : StepResult) (ev : Option OutputEvent)
    (hmem : (st, c, res, ev) ∈ processSteps cfg styleid cs) (row : ℕ) :
    (res = .placed row false → ∀ i < natCeil c.height,
        slotBlocks cfg c ((laneOf st c).getD (row + i) none) = false) ∧
    (res = .placed row true → ∀ s : ℕ, ¬ freeRunAt cfg c (laneOf st c) s) := by
  have hres := processFold_sound cfg styleid cs (initRows cfg) (st, c, res, ev) hmem
  simp only at hres
  constructor
  · intro hplaced i hi
    subst hplaced
    have helim := (processOne_placed_elim cfg styleid st c row false hres.symm).1 rfl
    obtain ⟨_, hcap⟩ := searchRowLoop_found_sound cfg st c _ 0 row helim
    have hn : natCeil c.height ≤ TestFreeRows cfg st c row := natCeil_le_of_le hcap
    exact TestFreeRows_free cfg st c row i (by omega)
  · intro hplaced s
    subst hplaced
    have helim := (processOne_placed_elim cfg styleid st c row true hres.symm).2 rfl
    exact searchRow_none_sound cfg st c helim s

set_option maxRecDepth 8000 in
theorem C1_nonoverlap_witness :
    ¬ freeRunAt cfgLaneC1 laneCmtB (laneOf laneStateAfterA laneCmtB) 0 := by
  have hsteps : processSteps cfgLaneC1 (styleidOf 0) [laneCmtA, laneCmtB, laneCmtC] =
      [(initRows cfgLaneC1, laneCmtA, .placed 0 false,
         some (.line (WriteComment cfgLaneC1 laneCmtA 0 (styleidOf 0)))),
       (laneStateAfterA, laneCmtB, .placed 0 true,
         some (.line (WriteComment cfgLaneC1 laneCmtB 0 (styleidOf 0)))),
       (MarkCommentRow laneStateAfterA laneCmtB 0, laneCmtC, .placed 0 false,
         some (.line (WriteComment cfgLaneC1 laneCmtC 0 (styleidOf 0))))] := by
    with_unfolding_all rfl
  exact (C1_nonoverlap_amended cfgLaneC1 (styleidOf 0) [laneCmtA, laneCmtB, laneCmtC]
    laneStateAfterA laneCmtB (.placed 0 true)
    (some (.line (WriteComment cfgLaneC1 laneCmtB 0 (styleidOf 0))))
    (by rw [hsteps]; exact List.mem_cons_of_mem _ (List.mem_cons_self _ _)) 0).2 rfl 0

theorem findAltLoop_min (cfg : Config) (c : Comment) (lane : Lane) (n : ℕ) :
    ∀ (fuel row res : ℕ), n ≤ fuel + row →
      (∀ r < row, occupantExpiry cfg c (lane.getD res none) ≤
        occupantExpiry cfg c (lane.getD r none)) →
      ∀ r < n, occupantExpiry cfg c (lane.getD (findAltLoop lane n fuel row res) none) ≤
        occupantExpiry cfg c (lane.getD r none) := by
  intro fuel
  induction fuel with
  | zero =>
    intro row res hle hinv r hr
    rw [show findAltLoop lane n 0 row res = res from rfl]
    exact hinv r (by omega)
  | succ f ih =>
    intro row res hle hinv r hr
    rw [findAltLoop]
    by_cases hrow : row < n
    · rw [if_pos hrow]
      cases hslot : lane.getD row none with
      | none =>
        simp only
        rw [hslot]
        exact bot_le
      | some o =>
        simp only
        cases hres : lane.getD res none with
        | none =>
          apply ih (row + 1) res (by omega) _ r hr
          intro r' hr'
          rcases Nat.lt_succ_iff_lt_or_eq.mp hr' with h | h
          · exact hinv r' h
          · subst h
            rw [hres]
            exact bot_le
        | some b =>
          apply ih (row + 1) _ (by omega) _ r hr
          intro r' hr'
          by_cases ho : o.timeline < b.timeline
          · rw [if_pos ho]
            rcases Nat.lt_succ_iff_lt_or_eq.mp hr' with h | h
            · calc occupantExpiry cfg c (lane.getD row none) ≤
                  occupantExpiry cfg c (lane.getD res none) := by
                    rw [hslot, hres]
                    simp only [occupantExpiry]
                    exact_mod_cast add_le_add_right ho.le (commentDuration cfg c)
                _ ≤ occupantExpiry cfg c (lane.getD r' none) := hinv r' h
            · subst h
              exact le_refl _
          · rw [if_neg ho]
            rcases Nat.lt_succ_iff_lt_or_eq.mp hr' with h | h
            · exact hinv r' h
            · subst h
              rw [hres, hslot]
              simp only [occupantExpiry]
              exact_mod_cast add_le_add_right (not_lt.mp ho) (commentDuration cfg c)
    · rw [if_neg hrow]
      exact hinv r (by omega)

theorem FindAlternativeRow_min (cfg : Config) (rows : RowsTable) (c : Comment) :
    ∀ r < (cfg.height - cfg.bottomReserved - ⌈c.height⌉).toNat,
      occupantExpiry cfg c ((laneOf rows c).getD (FindAlternativeRow cfg rows c) none) ≤
        occupantExpiry cfg c ((laneOf rows c).getD r none) := by
  intro r hr
  unfold FindAlternativeRow
  exact findAltLoop_min cfg c (laneOf rows c) _ _ 0 0 (by omega)
    (fun r' hr' => absurd hr' (by omega)) r hr

/-- C3 (confirmed).  When no full run of free rows exists for a flow
comment (of positive height): in degraded ("reduce comments") mode the
comment is dropped — no event is emitted and the lane table is unchanged —
while otherwise it is placed (marked and written) at the row returned by
`FindAlternativeRow`, which minimizes the current occupant's expiry time
over the scanned range (an empty slot counting as an already-expired
occupant, `⊥`); occupants of the same lane share the kind's fixed
duration, so minimizing the occupant timeline is minimizing the expiry. -/
theorem C3_fallback_earliest (cfg : Config) (styleid : String) (rows : RowsTable) (c : Comment)
    (hflow : c.kind.isFlow = true) (hh : 0 < c.height)
    (hfil : filterMatches cfg c = false)
    (hnorun : ∀ s : ℕ, ¬ freeRunAt cfg c (laneOf rows c) s) :
    (cfg.reduced = true → processOne cfg styleid rows c = (rows, none, .droppedReduced)) ∧
    (cfg.reduced = false →
      processOne cfg styleid rows c =
        (MarkCommentRow rows c (FindAlternativeRow cfg rows c),
          some (.line (WriteComment cfg c (FindAlternativeRow cfg rows c) styleid)),
          .placed (FindAlternativeRow cfg rows c) true) ∧
      ∀ r < (cfg.height - cfg.bottomReserved - ⌈c.height⌉).toNat,
        occupantExpiry cfg c ((laneOf rows c).getD (FindAlternativeRow cfg rows c) none) ≤
          occupantExpiry cfg c ((laneOf rows c).getD r none)) := by
  have hsearch : searchRow cfg rows c = none := by
    cases hs : searchRow cfg rows c with
    | none => rfl
    | some r => exact absurd (searchRow_some_sound cfg rows c r hh hs) (hnorun r)
  constructor
  · intro hred
    unfold processOne
    rw [hflow, hfil, hsearch, hred]
    simp
  · intro hred
    refine ⟨?_, FindAlternativeRow_min cfg rows c⟩
    unfold processOne
    rw [hflow, hfil, hsearch, hred]
    simp

set_option maxRecDepth 8000 in
theorem C3_fallback_earliest_witness :
    processOne cfgAlt (styleidOf 0) altState altNewcomer =
      (MarkCommentRow altState altNewcomer (FindAlternativeRow cfgAlt altState altNewcomer),
        some (.line (WriteComment cfgAlt altNewcomer
          (FindAlternativeRow cfgAlt altState altNewcomer) (styleidOf 0))),
        .placed (FindAlternativeRow cfgAlt altState altNewcomer) true) := by
  have hnorun : ∀ s : ℕ, ¬ freeRunAt cfgAlt altNewcomer (laneOf altState altNewcomer) s := by
    intro s hs
    have hceil : natCeil altNewcomer.height = 2 := by with_unfolding_all rfl
    have hfit := hs.1
    rw [hceil] at hfit
    have hHB : cfgAlt.height - cfgAlt.bottomReserved = 2 := by with_unfolding_all rfl
    rw [hHB] at hfit
    have hs0 : s = 0 := by omega
    subst hs0
    have hblock := hs.2 0 (by rw [hceil]; omega)
    revert hblock
    with_unfolding_all decide
  exact ((C3_fallback_earliest cfgAlt (styleidOf 0) altState altNewcomer
    (by with_unfolding_all decide) (by with_unfolding_all decide)
    (by with_unfolding_all rfl) hnorun).2 rfl).1
